/-
Verification of the polling-cycle core of "The Sniper" job bot.

Shallow embedding of the repository's Python sources:
  run.py         : JobDatabase, SmartJobFilter, SniperBotV2.check_feeds / run
  job_fetcher.py : JobFetcher (URL validation, entry extraction, fetch_jobs)
  notifier.py    : TelegramNotifier.send_message
  ai_drafter.py  : AIProposalDrafter.generate_proposal

External collaborators (HTTP, sqlite3's success/failure, feedparser's parse,
the Gemini API) are modelled as explicit oracles/outcome values passed in;
the control flow and data transformations around them are translated from the
source line by line.  Python text operations (str.lower, str.split, str.strip,
substring containment, html.escape) are modelled by executable functions on
the character list underlying a Lean String, because the corresponding core
String functions do not reduce in the kernel.
-/
import Mathlib

set_option maxHeartbeats 1000000
set_option maxRecDepth 100000

/-! ### Text primitives modelling Python string operations -/

/-- Models Python str.lower on the underlying character list (ASCII case fold,
matching the letters that occur in the configuration keywords). -/
def pyLower (l : List Char) : List Char := l.map Char.toLower

/-- Helper for substring containment: pattern is an initial segment of s. -/
def startsWithCL : List Char → List Char → Bool
  | [], _ => true
  | _ :: _, [] => false
  | p :: ps, s :: ss => p == s && startsWithCL ps ss

/-- Models the Python substring test (the binary operator checking whether
pattern occurs contiguously inside s, the empty pattern always matching). -/
def containsCL (pattern : List Char) : List Char → Bool
  | [] => startsWithCL pattern []
  | s :: ss => startsWithCL pattern (s :: ss) || containsCL pattern ss

/-- Helper for Python str.split with no separator: accumulate maximal runs of
non-whitespace characters, dropping all whitespace. -/
def splitWsAux : List Char → List Char → List (List Char)
  | [], acc => if acc.isEmpty then [] else [acc.reverse]
  | c :: cs, acc =>
    if c.isWhitespace then
      if acc.isEmpty then splitWsAux cs [] else acc.reverse :: splitWsAux cs []
    else splitWsAux cs (c :: acc)

/-- Models Python text.split() (split on whitespace runs, no empty tokens). -/
def pyWords (l : List Char) : List (List Char) := splitWsAux l []

/-- Models Python " ".join(words). -/
def joinSp : List (List Char) → List Char
  | [] => []
  | [w] => w
  | w :: ws => w ++ ' ' :: joinSp ws

/-- Models Python str.strip(): drop leading and trailing whitespace. -/
def pyStrip (l : List Char) : List Char :=
  ((l.dropWhile Char.isWhitespace).reverse.dropWhile Char.isWhitespace).reverse

/-- Models Python html.escape for one character (quote=True default: the five
characters ampersand, less-than, greater-than, double quote, single quote are
replaced by their entities).  Since the replacement entities contain none of
the characters replaced by the later .replace calls, html.escape's chain of
replace calls acts character-wise and this per-character model is exact. -/
def escChar (c : Char) : List Char :=
  if c = '&' then "&amp;".data
  else if c = '<' then "&lt;".data
  else if c = '>' then "&gt;".data
  else if c = '"' then "&quot;".data
  else if c = Char.ofNat 39 then "&#x27;".data
  else [c]

/-- Character-list version of html.escape. -/
def escapeCL : List Char → List Char
  | [] => []
  | c :: cs => escChar c ++ escapeCL cs

/-- Models Python html.escape(s) as used in run.py (default quote=True). -/
def html_escape (s : String) : String := ⟨escapeCL s.data⟩

/-! ### Data model (run.py JobDatabase, job dictionaries) -/

/-- A job dictionary as produced by JobFetcher._extract_job_data and consumed
by run.py: keys title, link, published, summary. -/
structure Job where
  title : String
  link : String
  published : String
  summary : String
deriving DecidableEq, Repr

/-- A row of the seen_jobs table (run.py JobDatabase._setup): job_link is the
primary key; the seen_at timestamp column is not modelled (never read). -/
structure SeenRecord where
  job_link : String
  title : String
  published : String
deriving DecidableEq, Repr

/-- The observable state of the sqlite seen_jobs table: its rows in insertion
order. -/
abbrev JobDatabase := List SeenRecord

/-- Helper: the table has a row whose job_link equals link. -/
def memDb (db : JobDatabase) (link : String) : Bool :=
  db.any fun r => r.job_link == link

/-- Models JobDatabase.is_new_job: SELECT 1 FROM seen_jobs WHERE job_link = ?;
returns true iff fetchone() is None, i.e. no row with this link exists. -/
def is_new_job (db : JobDatabase) (link : String) : Bool :=
  !memDb db link

/-- Models JobDatabase.save_job: INSERT OR IGNORE INTO seen_jobs
(job_link, title, published); since job_link is the primary key the insert is
ignored when a row with the same link already exists. -/
def save_job (db : JobDatabase) (job : Job) : JobDatabase :=
  if memDb db job.link then db
  else db ++ [⟨job.link, job.title, job.published⟩]

/-- Models JobDatabase.is_empty: SELECT COUNT(*) = 0. -/
def is_empty (db : JobDatabase) : Bool := db.isEmpty

/-- Models JobDatabase.count: SELECT COUNT(*). -/
def db_count (db : JobDatabase) : Nat := db.length

/-! ### Relevance filter (run.py SmartJobFilter) -/

/-- Models SmartJobFilter: __init__ lower-cases every configured keyword, and
is_relevant(job_title, job_description) builds the f-string
"{job_title} {job_description}", lower-cases it, and returns True as soon as
some stored keyword occurs in it as a substring, False if none does. -/
def is_relevant (keywords : List String) (job_title job_description : String) : Bool :=
  let kws := keywords.map fun k => pyLower k.data
  let text := pyLower (job_title ++ " " ++ job_description).data
  kws.any fun k => containsCL k text

/-! ### Fetcher (job_fetcher.py JobFetcher) -/

/-- A feedparser entry as read by _extract_job_data: entry.get(key, default)
yields the default exactly when the key is absent, modelled by Option. -/
structure Entry where
  title : Option String
  link : Option String
  published : Option String
  summary : Option String
deriving DecidableEq, Repr

/-- Models JobFetcher._clean_text: empty (falsy) text maps to "", otherwise
" ".join(text.split()).strip(). -/
def clean_text (text : String) : String :=
  if text = "" then "" else ⟨pyStrip (joinSp (pyWords text.data))⟩

/-- Models JobFetcher._extract_job_data: build the job dictionary with the
source defaults, then keep it only if both title and link are non-empty
(Python truthiness of the two strings). -/
def extract_job_data (entry : Entry) : Option Job :=
  let job : Job :=
    { title := clean_text (entry.title.getD "No Title")
      link := entry.link.getD ""
      published := entry.published.getD "Date not available"
      summary := clean_text (entry.summary.getD "No description available") }
  if job.title ≠ "" && job.link ≠ "" then some job else none

/-- Models JobFetcher._validate_url, i.e. the stdlib urlparse boundary with
all([scheme, netloc]): the URL is valid iff its first colon is preceded by at
least one character (non-empty scheme) and followed by two slashes and a
non-empty host segment (non-empty netloc).  The flag records whether a
character was seen before the colon. -/
def validateAux : List Char → Bool → Bool
  | [], _ => false
  | c :: cs, seen =>
    if c = ':' then
      seen && (match cs with
        | '/' :: '/' :: rest =>
          (match rest with
           | [] => false
           | d :: _ => decide (d ≠ '/'))
        | _ => false)
    else validateAux cs true

/-- Models JobFetcher._validate_url (urlparse plus all([scheme, netloc])). -/
def validate_url (url : String) : Bool := validateAux url.data false

/-- Outcome of the requests.get plus feedparser.parse collaborators inside
fetch_jobs: one constructor per except-clause of the source, and response
carries the HTTP status together with the entry list that feedparser.parse
extracts from the body (feedparser absorbs malformed input, possibly yielding
no entries; the bozo flag is only logged by the source and has no effect). -/
inductive FetchOutcome where
  | connError
  | timeout
  | requestError
  | unexpectedError
  | response (status : Nat) (entries : List Entry)
deriving DecidableEq, Repr

/-- Models JobFetcher.fetch_jobs: invalid URL yields []; every exception path
yields []; a non-200 status yields []; an empty entry list yields []; otherwise
each entry is extracted and the failures are dropped. -/
def fetch_jobs (rss_url : String) (o : FetchOutcome) : List Job :=
  if !validate_url rss_url then []
  else
    match o with
    | .response status entries =>
      if status ≠ 200 then []
      else if entries.isEmpty then []
      else entries.filterMap extract_job_data
    | _ => []

/-- The failure modes named by the spec for a fetch: invalid URL, any request
exception, non-200 status, or a body from which feedparser extracts no
entries. -/
def isFetchFailure (url : String) (o : FetchOutcome) : Bool :=
  !validate_url url ||
    (match o with
     | .response status entries => status ≠ 200 || entries.isEmpty
     | _ => true)

/-! ### Notifier (notifier.py TelegramNotifier.send_message) -/

/-- Outcome of the requests.post collaborator inside send_message: one
constructor per except-clause, and response carries the HTTP status together
with the ok field of the decoded Telegram JSON body. -/
inductive SendOutcome where
  | connError
  | timeout
  | otherError
  | response (status : Nat) (ok : Bool)
deriving DecidableEq, Repr

/-- Models TelegramNotifier.send_message: an empty-after-strip message is
refused with False before any request; otherwise True exactly when the
response has status 200 and a truthy ok field; every exception path returns
False.  The function is total: every failure is a False return value, never a
propagated exception. -/
def send_message (message : String) (o : SendOutcome) : Bool :=
  if (⟨pyStrip message.data⟩ : String) = "" then false
  else
    match o with
    | .response status ok => if status = 200 then ok else false
    | _ => false

/-! ### Drafter (ai_drafter.py AIProposalDrafter.generate_proposal) -/

/-- Outcome of the Gemini generate_content call: the response text on success,
or the exception's string on failure. -/
inductive GenOutcome where
  | ok (text : String)
  | err (msg : String)
deriving DecidableEq, Repr

/-- The fallback string of generate_proposal's except-branch, for a given
exception text. -/
def proposalFallback (e : String) : String :=
  "[AI Generation Failed: " ++ e ++ "]\n\nPlease draft proposal manually for this job."

/-- Models AIProposalDrafter.generate_proposal: the prompt building (including
the 500-character truncation of the description) only feeds the API call; the
returned value is response.text.strip() on success and the fallback string on
any exception. -/
def generate_proposal (job_title job_description : String) (o : GenOutcome) : String :=
  match o with
  | .ok t => ⟨pyStrip t.data⟩
  | .err e => proposalFallback e

/-! ### Cycle orchestrator (run.py SniperBotV2.check_feeds) -/

/-- Collaborator oracles for one cycle, indexed by the number of alerts sent
so far in the cycle (generate_proposal and send_message are each called
exactly once per alert, in lock step): gen is the Gemini outcome of the n-th
generate_content call, send the boolean outcome of the n-th
notifier.send_message call. -/
structure Oracles where
  gen : Nat → GenOutcome
  send : Nat → Bool

/-- One alert dispatched by check_feeds: the job and source it was built from,
the formatted message passed to notifier.send_message, and the boolean result
of that send (which check_feeds discards). -/
structure Alert where
  job : Job
  source : String
  message : String
  sendOk : Bool
deriving DecidableEq, Repr

/-- The mutable state threaded through one check_feeds invocation: the
database, the alerts sent so far this cycle (in order), and the
all_new_jobs list collected on a first run. -/
structure CycleState where
  db : JobDatabase
  alerts : List Alert
  all_new : List (Job × String)
deriving DecidableEq, Repr

/-- The part of the alert template before the escaped proposal (run.py
format_alert_with_proposal's f-string up to the code tag). -/
def alertTemplateHead (job : Job) (source : String) : String :=
  "🎯 <b>NEW RELEVANT JOB FOUND!</b>\n\n📌 <b>" ++ html_escape job.title ++
  "</b>\n\n🔗 <b>Link:</b> " ++ job.link ++
  "\n\n📅 <b>Published:</b> " ++ job.published ++
  "\n📡 <b>Source:</b> " ++ source ++
  "\n\n🤖 <b>AI-GENERATED PROPOSAL:</b>\n<code>"

/-- The part of the alert template after the escaped proposal. -/
def alertTemplateTail : String :=
  "</code>\n\n💡 <b>Tip:</b> Copy the proposal above and customize it before sending!\n"

/-- Models SniperBotV2.format_alert_with_proposal: the f-string template with
html.escape applied to the title and to the proposal (split here into the
template text before and after the escaped proposal). -/
def format_alert_with_proposal (job : Job) (source : String) (proposal : String) : String :=
  alertTemplateHead job source ++ html_escape proposal ++ alertTemplateTail

/-- Models the body of check_feeds' inner loop (for job in new_jobs): a
relevant job is appended to all_new_jobs on a first run, and otherwise
enriched, sent, and saved; an irrelevant job is saved without alerting.  The
statistics counters and the time.sleep(2) pacing delay have no effect on the
store or on the alert sequence and are not modelled. -/
def processJob (is_first_run : Bool) (keywords : List String) (or : Oracles)
    (source : String) (st : CycleState) (job : Job) : CycleState :=
  if is_relevant keywords job.title job.summary then
    if is_first_run then
      { st with all_new := st.all_new ++ [(job, source)] }
    else
      let proposal := generate_proposal job.title job.summary (or.gen st.alerts.length)
      let msg := format_alert_with_proposal job source proposal
      let result := or.send st.alerts.length
      { db := save_job st.db job
        alerts := st.alerts ++ [⟨job, source, msg, result⟩]
        all_new := st.all_new }
  else
    { st with db := save_job st.db job }

/-- One feed's already-fetched jobs together with its derived source label
(check_feeds derives the label from the feed URL; the label never influences
control flow, so it is carried as a given string). -/
structure FeedData where
  source : String
  jobs : List Job
deriving DecidableEq, Repr

/-- Models one iteration of check_feeds' outer loop for one feed: new_jobs is
computed in one pass against the database state at the start of the feed
(the list comprehension runs before the per-job loop), then each new job is
processed in fetch order. -/
def processFeed (is_first_run : Bool) (keywords : List String) (or : Oracles)
    (st : CycleState) (feed : FeedData) : CycleState :=
  let new_jobs := feed.jobs.filter fun j => is_new_job st.db j.link
  new_jobs.foldl (processJob is_first_run keywords or feed.source) st

/-- Models one iteration of the first-run batch loop over
all_new_jobs[:FIRST_RUN_ALERT_LIMIT]: generate a proposal, send the alert,
save the job. -/
def alertAndSave (or : Oracles) (st : CycleState) (p : Job × String) : CycleState :=
  let proposal := generate_proposal p.1.title p.1.summary (or.gen st.alerts.length)
  let msg := format_alert_with_proposal p.1 p.2 proposal
  let result := or.send st.alerts.length
  { db := save_job st.db p.1
    alerts := st.alerts ++ [⟨p.1, p.2, msg, result⟩]
    all_new := st.all_new }

/-- Models SniperBotV2.check_feeds for one cycle, with the per-feed job lists
already fetched (feed fetch failures appear as empty job lists, exactly the
value fetch_jobs returns on failure): is_first_run is decided once from
is_empty at cycle start; each feed is deduplicated and processed; on a first
run with a non-empty collection, the first limit entries of all_new_jobs are
alerted and saved and the remainder saved without alerting. -/
def check_feeds (keywords : List String) (limit : Nat) (or : Oracles)
    (feeds : List FeedData) (db : JobDatabase) : CycleState :=
  let is_first_run := is_empty db
  let st := feeds.foldl (processFeed is_first_run keywords or) ⟨db, [], []⟩
  if is_first_run && !st.all_new.isEmpty then
    let st2 := (st.all_new.take limit).foldl (alertAndSave or) st
    (st.all_new.drop limit).foldl (fun s p => { s with db := save_job s.db p.1 }) st2
  else st

/-- Input of one cycle of the run loop: the oracles for this cycle and the
fetched job lists of each configured feed. -/
structure CycleIn where
  or : Oracles
  feeds : List FeedData

/-- Models successive check_feeds invocations of SniperBotV2.run's while loop
(the sleep between cycles has no effect on the store): the final database and
the concatenation of every cycle's alerts in order. -/
def runCycles (keywords : List String) (limit : Nat) :
    List CycleIn → JobDatabase → JobDatabase × List Alert
  | [], db => (db, [])
  | c :: cs, db =>
    let st := check_feeds keywords limit c.or c.feeds db
    let r := runCycles keywords limit cs st.db
    (r.1, st.alerts ++ r.2)

/-- Number of alerts dispatched for a given link. -/
def countAlertsFor (alerts : List Alert) (link : String) : Nat :=
  (alerts.filter fun a => a.job.link == link).length

/-- All links fetched in a cycle, in feed order then within-feed fetch
order. -/
def cycleLinks : List FeedData → List String
  | [] => []
  | f :: fs => (f.jobs.map fun j => j.link) ++ cycleLinks fs

/-! ### Fallible model of the cycle (sqlite operations that can raise)

The pure check_feeds above models runs in which every sqlite operation
succeeds.  run.py contains no exception handling around the database: a
sqlite3 error raised by cursor.execute inside is_empty, is_new_job, save_job
or count propagates out of check_feeds, and SniperBotV2.run wraps its while
loop in a try whose only handler is except KeyboardInterrupt.  The model
below makes that propagation explicit: a failure oracle says which database
operation (counted in execution order from cycle start) raises, and every
function returns Except, with no catch anywhere inside the cycle — exactly
the source's control flow. -/

/-- The exceptions relevant to run.py's control flow: sqlite3 errors from the
store, and the KeyboardInterrupt that SniperBotV2.run alone handles. -/
inductive PyExc where
  | keyboardInterrupt
  | sqliteError
deriving DecidableEq, Repr

/-- Cycle state of the fallible model: as CycleState, plus the number of
database operations executed so far (the failure oracle's index). -/
structure EState where
  db : JobDatabase
  alerts : List Alert
  all_new : List (Job × String)
  opIdx : Nat
deriving Repr

/-- Models one cursor.execute of JobDatabase.is_empty: raises sqlite3 error
when the failure oracle marks this operation, otherwise returns the result. -/
def is_emptyE (fail : Nat → Bool) (st : EState) : Except PyExc (Bool × EState) :=
  if fail st.opIdx then .error .sqliteError
  else .ok (is_empty st.db, { st with opIdx := st.opIdx + 1 })

/-- Models one cursor.execute of JobDatabase.is_new_job. -/
def is_new_jobE (fail : Nat → Bool) (st : EState) (link : String) :
    Except PyExc (Bool × EState) :=
  if fail st.opIdx then .error .sqliteError
  else .ok (is_new_job st.db link, { st with opIdx := st.opIdx + 1 })

/-- Models one cursor.execute plus commit of JobDatabase.save_job. -/
def save_jobE (fail : Nat → Bool) (st : EState) (job : Job) : Except PyExc EState :=
  if fail st.opIdx then .error .sqliteError
  else .ok { st with db := save_job st.db job, opIdx := st.opIdx + 1 }

/-- Models one cursor.execute of JobDatabase.count. -/
def countE (fail : Nat → Bool) (st : EState) : Except PyExc (Nat × EState) :=
  if fail st.opIdx then .error .sqliteError
  else .ok (db_count st.db, { st with opIdx := st.opIdx + 1 })

/-- Models the list comprehension building new_jobs: one is_new_job query per
fetched job, in fetch order; the first raised error aborts the whole
comprehension (and with it the cycle). -/
def filterNewE (fail : Nat → Bool) : List Job → EState → Except PyExc (List Job × EState)
  | [], st => .ok ([], st)
  | j :: js, st => do
    let (b, st₁) ← is_new_jobE fail st j.link
    let (rest, st₂) ← filterNewE fail js st₁
    .ok (if b then j :: rest else rest, st₂)

/-- Fallible version of processJob: identical control flow, with save_job now
able to raise. -/
def processJobE (is_first_run : Bool) (keywords : List String) (or : Oracles)
    (fail : Nat → Bool) (source : String) (st : EState) (job : Job) :
    Except PyExc EState :=
  if is_relevant keywords job.title job.summary then
    if is_first_run then
      .ok { st with all_new := st.all_new ++ [(job, source)] }
    else
      let proposal := generate_proposal job.title job.summary (or.gen st.alerts.length)
      let msg := format_alert_with_proposal job source proposal
      let result := or.send st.alerts.length
      do
        let st₁ ← save_jobE fail st job
        .ok { st₁ with alerts := st₁.alerts ++ [⟨job, source, msg, result⟩] }
  else
    save_jobE fail st job

/-- Fallible version of processFeed. -/
def processFeedE (is_first_run : Bool) (keywords : List String) (or : Oracles)
    (fail : Nat → Bool) (st : EState) (feed : FeedData) : Except PyExc EState := do
  let (new_jobs, st₁) ← filterNewE fail feed.jobs st
  new_jobs.foldlM (processJobE is_first_run keywords or fail feed.source) st₁

/-- Fallible version of alertAndSave. -/
def alertAndSaveE (or : Oracles) (fail : Nat → Bool) (st : EState) (p : Job × String) :
    Except PyExc EState :=
  let proposal := generate_proposal p.1.title p.1.summary (or.gen st.alerts.length)
  let msg := format_alert_with_proposal p.1 p.2 proposal
  let result := or.send st.alerts.length
  do
    let st₁ ← save_jobE fail st p.1
    .ok { st₁ with alerts := st₁.alerts ++ [⟨p.1, p.2, msg, result⟩] }

/-- Fallible version of check_feeds, including the db.count() executed for the
cycle summary log line: no operation's error is caught anywhere in the
function, matching the absence of any try/except in check_feeds. -/
def check_feedsE (keywords : List String) (limit : Nat) (or : Oracles)
    (fail : Nat → Bool) (feeds : List FeedData) (db : JobDatabase) :
    Except PyExc EState := do
  let st0 : EState := ⟨db, [], [], 0⟩
  let (is_first_run, st1) ← is_emptyE fail st0
  let st2 ← feeds.foldlM (processFeedE is_first_run keywords or fail) st1
  let st3 ←
    if is_first_run && !st2.all_new.isEmpty then do
      let st3 ← (st2.all_new.take limit).foldlM (alertAndSaveE or fail) st2
      (st2.all_new.drop limit).foldlM (fun s p => save_jobE fail s p.1) st3
    else
      .ok st2
  let (_, st4) ← countE fail st3
  .ok st4

/-- Models the exception handling of SniperBotV2.run: the try around the while
loop has except KeyboardInterrupt as its only handler, so that is the only
exception the process survives; any other exception escaping check_feeds
terminates the process. -/
def runCatches (e : PyExc) : Bool := e == PyExc.keyboardInterrupt

/-- Observable projection of a cycle state used to express that the store and
the alert decisions are independent of the enrichment and send collaborators:
the database, the alerts stripped to (job, source), and all_new_jobs. -/
def stateProj (st : CycleState) : JobDatabase × List (Job × String) × List (Job × String) :=
  (st.db, st.alerts.map fun a => (a.job, a.source), st.all_new)

/-- The all_new_jobs list collected by the per-feed phase of a first-run
cycle. -/
def firstRunCollected (keywords : List String) (or : Oracles) (feeds : List FeedData)
    (db : JobDatabase) : List (Job × String) :=
  (feeds.foldl (processFeed true keywords or) ⟨db, [], []⟩).all_new

/-- The relevant new items of a bootstrap cycle written as the spec reads:
feed by feed in configured order, within a feed in fetch order, an item
counting as new when the store at the start of its feed's processing does not
contain its link (irrelevant new items enter the store as their feed is
processed, which the recursion threads through).  Defined without reference
to the orchestrator's fold so the orchestrator can be proved against it. -/
def relevantNewSeq (keywords : List String) : List FeedData → JobDatabase → List (Job × String)
  | [], _ => []
  | f :: fs, db =>
    let new_jobs := f.jobs.filter fun j => is_new_job db j.link
    ((new_jobs.filter fun j => is_relevant keywords j.title j.summary).map
        fun j => (j, f.source)) ++
      relevantNewSeq keywords fs
        (new_jobs.foldl
          (fun d j => if is_relevant keywords j.title j.summary then d else save_job d j) db)

/-- Invariant: every alert dispatched so far has its link in the store. -/
def RecordedInv (st : CycleState) : Prop :=
  ∀ a ∈ st.alerts, memDb st.db a.job.link = true

/-- Invariant parametrized by a link l: l is in the store, and no alert or
collected first-run entry so far carries l. -/
def NoLink (l : String) (st : CycleState) : Prop :=
  memDb st.db l = true ∧
  (∀ a ∈ st.alerts, (a.job.link == l) = false) ∧
  (∀ p ∈ st.all_new, (p.1.link == l) = false)

/-- Invariant: every alert so far and every collected first-run entry is for a
job the filter deems relevant. -/
def RelInv (keywords : List String) (st : CycleState) : Prop :=
  (∀ a ∈ st.alerts, is_relevant keywords a.job.title a.job.summary = true) ∧
  (∀ p ∈ st.all_new, is_relevant keywords p.1.title p.1.summary = true)

/-! ### Basic lemmas about the store -/

/-- Membership after save_job: the saved link is added, everything else is
unchanged. -/
theorem memDb_save_job (db : JobDatabase) (j : Job) (l : String) :
    memDb (save_job db j) l = (memDb db l || j.link == l) := by
  unfold save_job
  by_cases h : memDb db j.link = true
  · simp only [h, if_true]
    by_cases hl : j.link = l
    · subst hl
      simp [h]
    · have hbe : (j.link == l) = false := beq_eq_false_iff_ne.2 hl
      simp [hbe]
  · rw [if_neg h]
    simp [memDb, List.any_append]

/-- Saving a job makes its link a member. -/
theorem memDb_save_self (db : JobDatabase) (j : Job) :
    memDb (save_job db j) j.link = true := by
  simp [memDb_save_job]

/-- Saving preserves membership of any link. -/
theorem memDb_save_mono (db : JobDatabase) (j : Job) (l : String)
    (h : memDb db l = true) : memDb (save_job db j) l = true := by
  simp [memDb_save_job, h]

/-- Idempotence of save_job for a repeated id, including a second job value
carrying the same link: the second insert is ignored. -/
theorem save_job_same_link (db : JobDatabase) (j₁ j₂ : Job) (h : j₁.link = j₂.link) :
    save_job (save_job db j₁) j₂ = save_job db j₁ := by
  have hm : memDb (save_job db j₁) j₂.link = true := by
    rw [← h]; exact memDb_save_self db j₁
  generalize hd : save_job db j₁ = d at hm ⊢
  simp [save_job, hm]

/-! ### Generic fold lemmas -/

/-- A property preserved by every step is preserved by the fold. -/
theorem foldl_preserve {σ β : Type} (step : σ → β → σ) (P : σ → Prop)
    (h : ∀ s b, P s → P (step s b)) :
    ∀ (xs : List β) (s : σ), P s → P (xs.foldl step s)
  | [], _, hs => hs
  | x :: xs, s, hs => foldl_preserve step P h xs (step s x) (h s x hs)

/-- A property preserved by every step whose element satisfies Q. -/
theorem foldl_preserve_mem {σ β : Type} (step : σ → β → σ) (P : σ → Prop) (Q : β → Prop)
    (h : ∀ s b, Q b → P s → P (step s b)) :
    ∀ (xs : List β), (∀ b ∈ xs, Q b) → ∀ (s : σ), P s → P (xs.foldl step s)
  | [], _, _, hs => hs
  | x :: xs, hq, s, hs =>
    foldl_preserve_mem step P Q h xs (fun b hb => hq b (List.mem_cons_of_mem x hb))
      (step s x) (h s x (hq x (List.mem_cons_self x xs)) hs)

/-- A property established by the step of some member of the list and kept by
every later step holds after the fold. -/
theorem foldl_establish {σ β : Type} (step : σ → β → σ) (P : σ → Prop)
    (hkeep : ∀ s b, P s → P (step s b)) (x : β) (hx : ∀ s, P (step s x)) :
    ∀ (xs : List β) (s : σ), x ∈ xs → P (xs.foldl step s)
  | y :: xs, s, hmem => by
    rcases List.mem_cons.1 hmem with h | h
    · subst h
      exact foldl_preserve step P hkeep xs (step s x) (hx s)
    · exact foldl_establish step P hkeep x hx xs (step s y) h

/-- Two folds over the same list, with possibly different step functions,
preserve any binary relation their steps preserve. -/
theorem foldl_rel {σ β : Type} (R : σ → σ → Prop) (s t : σ → β → σ)
    (h : ∀ a b x, R a b → R (s a x) (t b x)) :
    ∀ (xs : List β) (a b : σ), R a b → R (xs.foldl s a) (xs.foldl t b)
  | [], _, _, hab => hab
  | x :: xs, a, b, hab => foldl_rel R s t h xs (s a x) (t b x) (h a b x hab)

/-! ### Substring characterization -/

/-- startsWithCL decides the initial-segment relation. -/
theorem startsWithCL_iff : ∀ (p s : List Char), startsWithCL p s = true ↔ p <+: s
  | [], s => by simp [startsWithCL, List.nil_prefix]
  | p :: ps, [] => by simp [startsWithCL]
  | p :: ps, s :: ss => by
    simp [startsWithCL, List.cons_prefix_cons, startsWithCL_iff ps ss, Bool.and_eq_true,
      beq_iff_eq]

/-- containsCL decides the contiguous-substring relation, so the model of the
Python substring operator coincides with List.IsInfix. -/
theorem containsCL_iff : ∀ (p s : List Char), containsCL p s = true ↔ p <:+: s
  | p, [] => by
    simp [containsCL, startsWithCL_iff, List.prefix_nil, List.infix_nil]
  | p, s :: ss => by
    rw [containsCL, Bool.or_eq_true, startsWithCL_iff, containsCL_iff p ss,
      List.infix_cons_iff]

/-! ### Counting alerts -/

/-- Counting distributes over concatenated alert lists. -/
theorem countAlertsFor_append (a b : List Alert) (l : String) :
    countAlertsFor (a ++ b) l = countAlertsFor a l + countAlertsFor b l := by
  simp [countAlertsFor, List.filter_append]

/-- A list of alerts none of which carries the link counts zero. -/
theorem countAlertsFor_eq_zero (alerts : List Alert) (l : String)
    (h : ∀ a ∈ alerts, (a.job.link == l) = false) : countAlertsFor alerts l = 0 := by
  simp only [countAlertsFor, List.length_eq_zero]
  exact List.filter_eq_nil_iff.2 fun a ha => by simp [h a ha]

/-- A positive count produces an alert carrying the link. -/
theorem countAlertsFor_pos (alerts : List Alert) (l : String)
    (h : 0 < countAlertsFor alerts l) : ∃ a ∈ alerts, a.job.link = l := by
  rcases List.exists_mem_of_length_pos h with ⟨a, ha⟩
  have := List.mem_filter.1 ha
  exact ⟨a, this.1, by simpa using this.2⟩

/-- The count of a link is the multiset count of the link in the projection of
the alert list to links. -/
theorem countAlertsFor_eq_count (alerts : List Alert) (l : String) :
    countAlertsFor alerts l = (alerts.map fun a => a.job.link).count l := by
  induction alerts with
  | nil => rfl
  | cons a as ih =>
    simp only [countAlertsFor, List.filter] at *
    by_cases h : (a.job.link == l) = true
    · simpa [h, List.count_cons, beq_iff_eq.1 h] using congrArg Nat.succ ih
    · have hne : ¬ a.job.link = l := by
        intro he; exact absurd (by simp [he]) h
      simp only [h] at *
      simpa [List.count_cons, hne] using ih

/-- If the projection of the alert list to links has no duplicates, no link is
alerted twice. -/
theorem countAlertsFor_le_one_of_nodup (alerts : List Alert) (l : String)
    (h : (alerts.map fun a => a.job.link).Nodup) : countAlertsFor alerts l ≤ 1 := by
  rw [countAlertsFor_eq_count]
  exact List.nodup_iff_count_le_one.1 h l

/-! ### Monotonicity of the store through a cycle -/

/-- processJob never removes a link from the store. -/
theorem processJob_db_mono (fr : Bool) (kws : List String) (or : Oracles) (src : String)
    (st : CycleState) (j : Job) (l : String) (h : memDb st.db l = true) :
    memDb (processJob fr kws or src st j).db l = true := by
  unfold processJob
  by_cases hrel : is_relevant kws j.title j.summary = true
  · by_cases hfr : fr = true
    · simp [hrel, hfr, h]
    · simp [hrel, hfr, memDb_save_mono _ _ _ h]
  · simp [hrel, memDb_save_mono _ _ _ h]

/-- processFeed never removes a link from the store. -/
theorem processFeed_db_mono (fr : Bool) (kws : List String) (or : Oracles)
    (st : CycleState) (f : FeedData) (l : String) (h : memDb st.db l = true) :
    memDb (processFeed fr kws or st f).db l = true := by
  unfold processFeed
  exact foldl_preserve _ (fun s => memDb s.db l = true)
    (fun s b hs => processJob_db_mono fr kws or f.source s b l hs) _ st h

/-- alertAndSave never removes a link from the store. -/
theorem alertAndSave_db_mono (or : Oracles) (st : CycleState) (p : Job × String)
    (l : String) (h : memDb st.db l = true) :
    memDb (alertAndSave or st p).db l = true := by
  unfold alertAndSave
  exact memDb_save_mono _ _ _ h

/-- check_feeds never removes a link from the store. -/
theorem check_feeds_db_mono (kws : List String) (limit : Nat) (or : Oracles)
    (feeds : List FeedData) (db : JobDatabase) (l : String) (h : memDb db l = true) :
    memDb (check_feeds kws limit or feeds db).db l = true := by
  simp only [check_feeds]
  have h1 : memDb ((feeds.foldl (processFeed (is_empty db) kws or) ⟨db, [], []⟩).db) l = true :=
    foldl_preserve _ (fun s => memDb s.db l = true)
      (fun s b hs => processFeed_db_mono _ kws or s b l hs) _ _ h
  split
  · refine foldl_preserve _ (fun s : CycleState => memDb s.db l = true)
      (fun s b hs => memDb_save_mono _ _ _ hs) _ _ ?_
    exact foldl_preserve _ (fun s : CycleState => memDb s.db l = true)
      (fun s b hs => alertAndSave_db_mono or s b l hs) _ _ h1
  · exact h1

/-! ### Every alert is recorded by cycle end -/

/-- processJob preserves the recorded invariant. -/
theorem processJob_recorded (fr : Bool) (kws : List String) (or : Oracles) (src : String)
    (st : CycleState) (j : Job) (h : RecordedInv st) :
    RecordedInv (processJob fr kws or src st j) := by
  unfold processJob
  by_cases hrel : is_relevant kws j.title j.summary = true
  · by_cases hfr : fr = true
    · simpa [hrel, hfr, RecordedInv] using h
    · intro a ha
      simp only [hrel, hfr, if_true, if_false, Bool.false_eq_true] at ha ⊢
      rcases List.mem_append.1 ha with hmem | hmem
      · exact memDb_save_mono _ _ _ (h a hmem)
      · have : a = ⟨j, src, _, _⟩ := List.mem_singleton.1 hmem
        subst this
        exact memDb_save_self _ _
  · intro a ha
    simp only [hrel, Bool.false_eq_true, if_false] at ha ⊢
    exact memDb_save_mono _ _ _ (h a ha)

/-- alertAndSave preserves the recorded invariant. -/
theorem alertAndSave_recorded (or : Oracles) (st : CycleState) (p : Job × String)
    (h : RecordedInv st) : RecordedInv (alertAndSave or st p) := by
  intro a ha
  unfold alertAndSave at ha ⊢
  rcases List.mem_append.1 ha with hmem | hmem
  · exact memDb_save_mono _ _ _ (h a hmem)
  · have : a = ⟨p.1, p.2, _, _⟩ := List.mem_singleton.1 hmem
    subst this
    exact memDb_save_self _ _

/-- check_feeds ends with every alert of the cycle recorded. -/
theorem check_feeds_recorded (kws : List String) (limit : Nat) (or : Oracles)
    (feeds : List FeedData) (db : JobDatabase) :
    RecordedInv (check_feeds kws limit or feeds db) := by
  simp only [check_feeds]
  have h1 : RecordedInv (feeds.foldl (processFeed (is_empty db) kws or) ⟨db, [], []⟩) := by
    refine foldl_preserve _ RecordedInv ?_ _ _ ?_
    · intro s f hs
      exact foldl_preserve _ RecordedInv
        (fun s' b hs' => processJob_recorded _ kws or f.source s' b hs') _ _ hs
    · intro a ha
      simp at ha
  split
  · refine foldl_preserve _ RecordedInv ?_ _ _ ?_
    · intro s p hs a ha
      exact memDb_save_mono _ _ _ (hs a ha)
    · exact foldl_preserve _ RecordedInv (fun s p hs => alertAndSave_recorded or s p hs) _ _ h1
  · exact h1

/-! ### Oracle independence of the store and of the alert decisions -/

/-- processJob's effect on the observable projection does not depend on the
enrichment and send oracles (they only populate the message and sendOk fields
of the alert entry). -/
theorem processJob_proj (fr : Bool) (kws : List String) (or₁ or₂ : Oracles) (src : String)
    (st₁ st₂ : CycleState) (j : Job) (h : stateProj st₁ = stateProj st₂) :
    stateProj (processJob fr kws or₁ src st₁ j) = stateProj (processJob fr kws or₂ src st₂ j) := by
  have hdb : st₁.db = st₂.db := congrArg (fun t => t.1) h
  have hal : (st₁.alerts.map fun a => (a.job, a.source)) =
      (st₂.alerts.map fun a => (a.job, a.source)) := congrArg (fun t => t.2.1) h
  have han : st₁.all_new = st₂.all_new := congrArg (fun t => t.2.2) h
  unfold processJob
  by_cases hrel : is_relevant kws j.title j.summary = true
  · by_cases hfr : fr = true
    · simp [stateProj, hrel, hfr, hdb, hal, han]
    · simp [stateProj, hrel, hfr, hdb, hal, han]
  · simp [stateProj, hrel, hdb, hal, han]

/-- processFeed's effect on the observable projection does not depend on the
oracles. -/
theorem processFeed_proj (fr : Bool) (kws : List String) (or₁ or₂ : Oracles)
    (st₁ st₂ : CycleState) (f : FeedData) (h : stateProj st₁ = stateProj st₂) :
    stateProj (processFeed fr kws or₁ st₁ f) = stateProj (processFeed fr kws or₂ st₂ f) := by
  have hdb : st₁.db = st₂.db := congrArg (fun t => t.1) h
  unfold processFeed
  rw [hdb]
  exact foldl_rel (fun a b => stateProj a = stateProj b) _ _
    (fun a b x hab => processJob_proj fr kws or₁ or₂ f.source a b x hab) _ st₁ st₂ h

/-- alertAndSave's effect on the observable projection does not depend on the
oracles. -/
theorem alertAndSave_proj (or₁ or₂ : Oracles) (st₁ st₂ : CycleState) (p : Job × String)
    (h : stateProj st₁ = stateProj st₂) :
    stateProj (alertAndSave or₁ st₁ p) = stateProj (alertAndSave or₂ st₂ p) := by
  have hdb : st₁.db = st₂.db := congrArg (fun t => t.1) h
  have hal : (st₁.alerts.map fun a => (a.job, a.source)) =
      (st₂.alerts.map fun a => (a.job, a.source)) := congrArg (fun t => t.2.1) h
  have han : st₁.all_new = st₂.all_new := congrArg (fun t => t.2.2) h
  unfold alertAndSave
  simp [stateProj, hdb, hal, han]

/-- The store contents, the alerted (job, source) sequence, and the collected
all_new_jobs of a cycle are independent of the enrichment and send oracles. -/
theorem check_feeds_proj (kws : List String) (limit : Nat) (or₁ or₂ : Oracles)
    (feeds : List FeedData) (db : JobDatabase) :
    stateProj (check_feeds kws limit or₁ feeds db) =
      stateProj (check_feeds kws limit or₂ feeds db) := by
  simp only [check_feeds]
  have h1 : stateProj (feeds.foldl (processFeed (is_empty db) kws or₁) ⟨db, [], []⟩) =
      stateProj (feeds.foldl (processFeed (is_empty db) kws or₂) ⟨db, [], []⟩) :=
    foldl_rel (fun a b => stateProj a = stateProj b) _ _
      (fun a b x hab => processFeed_proj _ kws or₁ or₂ a b x hab) feeds _ _ rfl
  have han : (feeds.foldl (processFeed (is_empty db) kws or₁) ⟨db, [], []⟩).all_new =
      (feeds.foldl (processFeed (is_empty db) kws or₂) ⟨db, [], []⟩).all_new :=
    congrArg (fun t => t.2.2) h1
  rw [han]
  by_cases hc : (is_empty db &&
      !(feeds.foldl (processFeed (is_empty db) kws or₂) ⟨db, [], []⟩).all_new.isEmpty) = true
  · simp only [hc, if_true]
    refine foldl_rel (fun a b => stateProj a = stateProj b) _ _ ?_ _ _ _ ?_
    · intro a b x hab
      have hdb : a.db = b.db := congrArg (fun t => t.1) hab
      have hal : (a.alerts.map fun c => (c.job, c.source)) =
          (b.alerts.map fun c => (c.job, c.source)) := congrArg (fun t => t.2.1) hab
      have han' : a.all_new = b.all_new := congrArg (fun t => t.2.2) hab
      simp [stateProj, hdb, hal, han']
    · exact foldl_rel (fun a b => stateProj a = stateProj b) _ _
        (fun a b x hab => alertAndSave_proj or₁ or₂ a b x hab) _ _ _ h1
  · simp only [hc, if_false]
    exact h1

/-! ### Closed forms for the two cycle modes -/

/-- On a first run, processJob only saves irrelevant jobs and collects
relevant ones. -/
theorem processJob_first (kws : List String) (or : Oracles) (src : String)
    (st : CycleState) (j : Job) :
    processJob true kws or src st j =
      ⟨if is_relevant kws j.title j.summary then st.db else save_job st.db j,
       st.alerts,
       st.all_new ++ if is_relevant kws j.title j.summary then [(j, src)] else []⟩ := by
  by_cases hrel : is_relevant kws j.title j.summary = true
  · simp [processJob, hrel]
  · simp [processJob, hrel]

/-- Closed form of the first-run inner loop over a job list. -/
theorem foldl_processJob_first (kws : List String) (or : Oracles) (src : String) :
    ∀ (jobs : List Job) (st : CycleState),
      jobs.foldl (processJob true kws or src) st =
        ⟨jobs.foldl
            (fun d j => if is_relevant kws j.title j.summary then d else save_job d j) st.db,
         st.alerts,
         st.all_new ++ (jobs.filter fun j => is_relevant kws j.title j.summary).map
            fun j => (j, src)⟩
  | [], st => by simp
  | j :: jobs, st => by
    rw [List.foldl_cons, processJob_first, foldl_processJob_first kws or src jobs]
    by_cases hrel : is_relevant kws j.title j.summary = true
    · simp [hrel, List.filter_cons]
    · simp [hrel, List.filter_cons]

/-- Closed form of processFeed on a first run. -/
theorem processFeed_first (kws : List String) (or : Oracles) (st : CycleState) (f : FeedData) :
    processFeed true kws or st f =
      ⟨(f.jobs.filter fun j => is_new_job st.db j.link).foldl
          (fun d j => if is_relevant kws j.title j.summary then d else save_job d j) st.db,
       st.alerts,
       st.all_new ++
         (((f.jobs.filter fun j => is_new_job st.db j.link).filter
             fun j => is_relevant kws j.title j.summary).map fun j => (j, f.source))⟩ := by
  unfold processFeed
  exact foldl_processJob_first kws or f.source _ st

/-- The per-feed phase of a first run never alerts and collects exactly the
relevant-new sequence of the spec, in feed order then fetch order. -/
theorem feeds_first_char (kws : List String) (or : Oracles) :
    ∀ (feeds : List FeedData) (st : CycleState),
      (feeds.foldl (processFeed true kws or) st).alerts = st.alerts ∧
      (feeds.foldl (processFeed true kws or) st).all_new =
        st.all_new ++ relevantNewSeq kws feeds st.db
  | [], st => by simp [relevantNewSeq]
  | f :: feeds, st => by
    rw [List.foldl_cons, processFeed_first]
    obtain ⟨ha, hn⟩ := feeds_first_char kws or feeds
      ⟨(f.jobs.filter fun j => is_new_job st.db j.link).foldl
          (fun d j => if is_relevant kws j.title j.summary then d else save_job d j) st.db,
       st.alerts,
       st.all_new ++
         (((f.jobs.filter fun j => is_new_job st.db j.link).filter
             fun j => is_relevant kws j.title j.summary).map fun j => (j, f.source))⟩
    refine ⟨by simpa using ha, ?_⟩
    rw [hn]
    simp [relevantNewSeq, List.append_assoc]

/-- Projection to links of the steady-state inner loop: an alert is appended
for exactly the relevant jobs, in order. -/
theorem foldl_processJob_steady_links (kws : List String) (or : Oracles) (src : String) :
    ∀ (jobs : List Job) (st : CycleState),
      ((jobs.foldl (processJob false kws or src) st).alerts.map fun a => a.job.link) =
        (st.alerts.map fun a => a.job.link) ++
          ((jobs.filter fun j => is_relevant kws j.title j.summary).map fun j => j.link)
  | [], st => by simp
  | j :: jobs, st => by
    rw [List.foldl_cons]
    by_cases hrel : is_relevant kws j.title j.summary = true
    · rw [foldl_processJob_steady_links kws or src jobs]
      simp [processJob, hrel, List.filter_cons]
    · rw [foldl_processJob_steady_links kws or src jobs]
      simp [processJob, hrel, List.filter_cons]

/-- The link projection of the alerts after a steady-state pass over the feeds
is a sublist of the links fetched this cycle, extending the alerts already
present. -/
theorem feeds_steady_links_sub (kws : List String) (or : Oracles) :
    ∀ (feeds : List FeedData) (st : CycleState),
      List.Sublist ((feeds.foldl (processFeed false kws or) st).alerts.map fun a => a.job.link)
        ((st.alerts.map fun a => a.job.link) ++ cycleLinks feeds)
  | [], st => by simp [cycleLinks]
  | f :: feeds, st => by
    rw [List.foldl_cons]
    have h1 := feeds_steady_links_sub kws or feeds (processFeed false kws or st f)
    have h2 : List.Sublist ((processFeed false kws or st f).alerts.map fun a => a.job.link)
        ((st.alerts.map fun a => a.job.link) ++ (f.jobs.map fun j => j.link)) := by
      unfold processFeed
      rw [foldl_processJob_steady_links]
      refine List.Sublist.append (List.Sublist.refl _) ?_
      refine List.Sublist.map _ ?_
      exact ((List.filter_sublist _).trans (List.filter_sublist _))
    refine h1.trans ?_
    rw [cycleLinks, ← List.append_assoc]
    exact List.Sublist.append h2 (List.Sublist.refl _)

/-- Projection of the first-run batch loop: one alert per entry, in order,
with the entry's job and source. -/
theorem foldl_alertAndSave_char (or : Oracles) :
    ∀ (l : List (Job × String)) (st : CycleState),
      ((l.foldl (alertAndSave or) st).alerts.map fun a => (a.job, a.source)) =
        (st.alerts.map fun a => (a.job, a.source)) ++ l ∧
      (l.foldl (alertAndSave or) st).all_new = st.all_new
  | [], st => by simp
  | p :: l, st => by
    rw [List.foldl_cons]
    obtain ⟨ha, hn⟩ := foldl_alertAndSave_char or l (alertAndSave or st p)
    constructor
    · rw [ha]
      simp [alertAndSave]
    · rw [hn]
      simp [alertAndSave]

/-- The remainder loop of a first run only writes to the store. -/
theorem foldl_dropSave_keep :
    ∀ (l : List (Job × String)) (st : CycleState),
      ((l.foldl (fun s p => { s with db := save_job s.db p.1 }) st).alerts = st.alerts ∧
       (l.foldl (fun s p => { s with db := save_job s.db p.1 }) st).all_new = st.all_new)
  | [], st => ⟨rfl, rfl⟩
  | p :: l, st => by
    rw [List.foldl_cons]
    exact foldl_dropSave_keep l { st with db := save_job st.db p.1 }

/-! ### A link already in the store at cycle start is never alerted -/

/-- Closed form of one steady-state loop body. -/
theorem processJob_steady (kws : List String) (or : Oracles) (src : String)
    (st : CycleState) (j : Job) :
    processJob false kws or src st j =
      if is_relevant kws j.title j.summary then
        ⟨save_job st.db j,
         st.alerts ++ [⟨j, src,
           format_alert_with_proposal j src
             (generate_proposal j.title j.summary (or.gen st.alerts.length)),
           or.send st.alerts.length⟩],
         st.all_new⟩
      else ⟨save_job st.db j, st.alerts, st.all_new⟩ := by
  by_cases hrel : is_relevant kws j.title j.summary = true
  · simp [processJob, hrel]
  · simp [processJob, hrel]

/-- processJob preserves NoLink for a job whose link differs from l. -/
theorem processJob_nolink (fr : Bool) (kws : List String) (or : Oracles) (src : String)
    (l : String) (st : CycleState) (j : Job) (hj : (j.link == l) = false)
    (h : NoLink l st) : NoLink l (processJob fr kws or src st j) := by
  obtain ⟨hdb, hal, han⟩ := h
  by_cases hfr : fr = true
  · subst hfr
    rw [processJob_first]
    by_cases hrel : is_relevant kws j.title j.summary = true
    · rw [if_pos hrel, if_pos hrel]
      refine ⟨hdb, hal, ?_⟩
      intro p hp
      rcases List.mem_append.1 hp with hm | hm
      · exact han p hm
      · rw [List.mem_singleton.1 hm]
        exact hj
    · rw [if_neg hrel, if_neg hrel, List.append_nil]
      exact ⟨memDb_save_mono _ _ _ hdb, hal, han⟩
  · have hfr' : fr = false := by simpa using hfr
    subst hfr'
    rw [processJob_steady]
    by_cases hrel : is_relevant kws j.title j.summary = true
    · rw [if_pos hrel]
      refine ⟨memDb_save_mono _ _ _ hdb, ?_, han⟩
      intro a ha
      rcases List.mem_append.1 ha with hm | hm
      · exact hal a hm
      · rw [List.mem_singleton.1 hm]
        exact hj
    · rw [if_neg hrel]
      exact ⟨memDb_save_mono _ _ _ hdb, hal, han⟩

/-- processFeed preserves NoLink: every job passing the dedup filter has a
link absent from the store at feed start, hence different from l. -/
theorem processFeed_nolink (fr : Bool) (kws : List String) (or : Oracles)
    (l : String) (st : CycleState) (f : FeedData) (h : NoLink l st) :
    NoLink l (processFeed fr kws or st f) := by
  unfold processFeed
  refine foldl_preserve_mem _ (NoLink l) (fun j => (j.link == l) = false) ?_ _ ?_ _ h
  · intro s j hq hs
    exact processJob_nolink fr kws or f.source l s j hq hs
  · intro j hj
    have hnew : is_new_job st.db j.link = true := (List.mem_filter.1 hj).2
    have hnot : memDb st.db j.link = false := by
      simpa [is_new_job] using hnew
    by_cases he : j.link = l
    · rw [he] at hnot
      rw [h.1] at hnot
      cases hnot
    · exact beq_eq_false_iff_ne.2 he

/-- alertAndSave preserves NoLink for an entry whose link differs from l. -/
theorem alertAndSave_nolink (or : Oracles) (l : String) (st : CycleState)
    (p : Job × String) (hp : (p.1.link == l) = false) (h : NoLink l st) :
    NoLink l (alertAndSave or st p) := by
  obtain ⟨hdb, hal, han⟩ := h
  refine ⟨memDb_save_mono _ _ _ hdb, ?_, han⟩
  intro a ha
  unfold alertAndSave at ha
  rcases List.mem_append.1 ha with hm | hm
  · exact hal a hm
  · have : a = ⟨p.1, p.2, _, _⟩ := List.mem_singleton.1 hm
    subst this
    exact hp

/-- A link present in the store when a cycle starts is alerted zero times in
that cycle. -/
theorem check_feeds_seen_not_alerted (kws : List String) (limit : Nat) (or : Oracles)
    (feeds : List FeedData) (db : JobDatabase) (l : String) (h : memDb db l = true) :
    countAlertsFor (check_feeds kws limit or feeds db).alerts l = 0 := by
  have hinv : NoLink l (check_feeds kws limit or feeds db) := by
    simp only [check_feeds]
    have h1 : NoLink l (feeds.foldl (processFeed (is_empty db) kws or) ⟨db, [], []⟩) := by
      refine foldl_preserve _ (NoLink l)
        (fun s f hs => processFeed_nolink _ kws or l s f hs) _ _ ?_
      refine ⟨h, ?_, ?_⟩
      · intro a ha
        simp at ha
      · intro p hp
        simp at hp
    split
    · have h2 : NoLink l ((List.take limit
          (feeds.foldl (processFeed (is_empty db) kws or) ⟨db, [], []⟩).all_new).foldl
            (alertAndSave or) (feeds.foldl (processFeed (is_empty db) kws or) ⟨db, [], []⟩)) := by
        refine foldl_preserve_mem _ (NoLink l) (fun p => (p.1.link == l) = false) ?_ _ ?_ _ h1
        · intro s p hq hs
          exact alertAndSave_nolink or l s p hq hs
        · intro p hp
          exact h1.2.2 p (List.mem_of_mem_take hp)
      refine foldl_preserve _ (NoLink l) ?_ _ _ h2
      intro s p hs
      exact ⟨memDb_save_mono _ _ _ hs.1, hs.2.1, hs.2.2⟩
    · exact h1
  exact countAlertsFor_eq_zero _ _ hinv.2.1

/-! ### The links alerted in one cycle form a sublist of the fetched links -/

/-- The link projection of a bootstrap cycle's collected sequence is a sublist
of the fetched links. -/
theorem relevantNewSeq_links_sub (kws : List String) :
    ∀ (feeds : List FeedData) (db : JobDatabase),
      List.Sublist ((relevantNewSeq kws feeds db).map fun p => p.1.link) (cycleLinks feeds)
  | [], _ => by simp [relevantNewSeq, cycleLinks]
  | f :: feeds, db => by
    rw [relevantNewSeq, cycleLinks]
    simp only [List.map_append]
    refine List.Sublist.append ?_ (relevantNewSeq_links_sub kws feeds _)
    rw [List.map_map]
    refine List.Sublist.map _ ?_
    exact (List.filter_sublist _).trans (List.filter_sublist _)

/-- The links alerted by one check_feeds call form a sublist of the links
fetched that cycle (in both cycle modes). -/
theorem check_feeds_alert_links_sub (kws : List String) (limit : Nat) (or : Oracles)
    (feeds : List FeedData) (db : JobDatabase) :
    List.Sublist ((check_feeds kws limit or feeds db).alerts.map fun a => a.job.link)
      (cycleLinks feeds) := by
  simp only [check_feeds]
  by_cases hfr : is_empty db = true
  · rw [hfr]
    obtain ⟨hal, han⟩ := feeds_first_char kws or feeds ⟨db, [], []⟩
    simp only [List.nil_append] at hal han
    by_cases hne : (feeds.foldl (processFeed true kws or) ⟨db, [], []⟩).all_new.isEmpty = true
    · simp only [hne, Bool.not_true, Bool.and_false, Bool.false_eq_true, if_false]
      rw [hal]
      simp
    · have hne' : (feeds.foldl (processFeed true kws or) ⟨db, [], []⟩).all_new.isEmpty = false := by
        simpa using hne
      simp only [hne', Bool.not_false, Bool.and_true, eq_self_iff_true, if_true]
      obtain ⟨hk1, _⟩ := foldl_dropSave_keep
        (List.drop limit (feeds.foldl (processFeed true kws or) ⟨db, [], []⟩).all_new)
        ((List.take limit (feeds.foldl (processFeed true kws or) ⟨db, [], []⟩).all_new).foldl
          (alertAndSave or) (feeds.foldl (processFeed true kws or) ⟨db, [], []⟩))
      rw [hk1]
      obtain ⟨hc1, _⟩ := foldl_alertAndSave_char or
        (List.take limit (feeds.foldl (processFeed true kws or) ⟨db, [], []⟩).all_new)
        (feeds.foldl (processFeed true kws or) ⟨db, [], []⟩)
      have hml : (((List.take limit
            (feeds.foldl (processFeed true kws or) ⟨db, [], []⟩).all_new).foldl
              (alertAndSave or)
              (feeds.foldl (processFeed true kws or) ⟨db, [], []⟩)).alerts.map
            fun a => a.job.link) =
          ((((List.take limit
            (feeds.foldl (processFeed true kws or) ⟨db, [], []⟩).all_new).foldl
              (alertAndSave or)
              (feeds.foldl (processFeed true kws or) ⟨db, [], []⟩)).alerts.map
            fun a => (a.job, a.source)).map fun p => p.1.link) := by
        rw [List.map_map]
        rfl
      rw [hml, hc1, hal]
      simp only [List.map_nil, List.nil_append]
      refine (List.Sublist.map _ (List.take_sublist _ _)).trans ?_
      rw [han]
      exact relevantNewSeq_links_sub kws feeds db
  · have hfr' : is_empty db = false := by simpa using hfr
    rw [hfr']
    simp only [Bool.false_and, Bool.false_eq_true, if_false]
    simpa using feeds_steady_links_sub kws or feeds ⟨db, [], []⟩

/-! ### At most one alert per link across cycles, given distinct links per cycle -/

/-- Across any run, a link is alerted at most once provided each cycle fetched
pairwise-distinct links; moreover a link already recorded is never alerted
again. -/
theorem runCycles_le_one (kws : List String) (limit : Nat) :
    ∀ (cycles : List CycleIn) (db : JobDatabase) (l : String),
      (∀ c ∈ cycles, (cycleLinks c.feeds).Nodup) →
      countAlertsFor (runCycles kws limit cycles db).2 l ≤ 1 ∧
      (memDb db l = true → countAlertsFor (runCycles kws limit cycles db).2 l = 0)
  | [], db, l, _ => by simp [runCycles, countAlertsFor]
  | c :: cs, db, l, hnd => by
    have hndc : (cycleLinks c.feeds).Nodup := hnd c (List.mem_cons_self c cs)
    have hndcs : ∀ c' ∈ cs, (cycleLinks c'.feeds).Nodup :=
      fun c' hc' => hnd c' (List.mem_cons_of_mem c hc')
    have IH := runCycles_le_one kws limit cs
      (check_feeds kws limit c.or c.feeds db).db l hndcs
    have hsplit : (runCycles kws limit (c :: cs) db).2 =
        (check_feeds kws limit c.or c.feeds db).alerts ++
          (runCycles kws limit cs (check_feeds kws limit c.or c.feeds db).db).2 := rfl
    rw [hsplit, countAlertsFor_append]
    have hle : countAlertsFor (check_feeds kws limit c.or c.feeds db).alerts l ≤ 1 :=
      countAlertsFor_le_one_of_nodup _ _
        (hndc.sublist (check_feeds_alert_links_sub kws limit c.or c.feeds db))
    by_cases hm : memDb db l = true
    · have hz : countAlertsFor (check_feeds kws limit c.or c.feeds db).alerts l = 0 :=
        check_feeds_seen_not_alerted kws limit c.or c.feeds db l hm
      have hz2 : countAlertsFor
          (runCycles kws limit cs (check_feeds kws limit c.or c.feeds db).db).2 l = 0 :=
        IH.2 (check_feeds_db_mono kws limit c.or c.feeds db l hm)
      rw [hz, hz2]
      exact ⟨by norm_num, fun _ => by norm_num⟩
    · refine ⟨?_, fun hm' => absurd hm' hm⟩
      by_cases hz : countAlertsFor (check_feeds kws limit c.or c.feeds db).alerts l = 0
      · rw [hz]
        simpa using IH.1
      · have hpos : 0 < countAlertsFor (check_feeds kws limit c.or c.feeds db).alerts l :=
          Nat.pos_of_ne_zero hz
        obtain ⟨a, ha, halink⟩ := countAlertsFor_pos _ _ hpos
        have hmem : memDb (check_feeds kws limit c.or c.feeds db).db l = true := by
          rw [← halink]
          exact check_feeds_recorded kws limit c.or c.feeds db a ha
        rw [IH.2 hmem]
        simpa using hle

/-! ### Only relevant jobs are ever alerted -/

/-- processJob preserves RelInv. -/
theorem processJob_relinv (fr : Bool) (kws : List String) (or : Oracles) (src : String)
    (st : CycleState) (j : Job) (h : RelInv kws st) :
    RelInv kws (processJob fr kws or src st j) := by
  obtain ⟨hal, han⟩ := h
  by_cases hrel : is_relevant kws j.title j.summary = true
  · by_cases hfr : fr = true
    · subst hfr
      rw [processJob_first, if_pos hrel, if_pos hrel]
      refine ⟨hal, ?_⟩
      intro p hp
      rcases List.mem_append.1 hp with hm | hm
      · exact han p hm
      · rw [List.mem_singleton.1 hm]
        exact hrel
    · have hfr' : fr = false := by simpa using hfr
      subst hfr'
      rw [processJob_steady, if_pos hrel]
      refine ⟨?_, han⟩
      intro a ha
      rcases List.mem_append.1 ha with hm | hm
      · exact hal a hm
      · rw [List.mem_singleton.1 hm]
        exact hrel
  · by_cases hfr : fr = true
    · subst hfr
      rw [processJob_first, if_neg hrel, if_neg hrel, List.append_nil]
      exact ⟨hal, han⟩
    · have hfr' : fr = false := by simpa using hfr
      subst hfr'
      rw [processJob_steady, if_neg hrel]
      exact ⟨hal, han⟩

/-- Every alert dispatched by a cycle is for a job the filter deems
relevant. -/
theorem check_feeds_alerts_relevant (kws : List String) (limit : Nat) (or : Oracles)
    (feeds : List FeedData) (db : JobDatabase) :
    ∀ a ∈ (check_feeds kws limit or feeds db).alerts,
      is_relevant kws a.job.title a.job.summary = true := by
  have hinv : RelInv kws (check_feeds kws limit or feeds db) := by
    simp only [check_feeds]
    have h1 : RelInv kws (feeds.foldl (processFeed (is_empty db) kws or) ⟨db, [], []⟩) := by
      refine foldl_preserve _ (RelInv kws) ?_ _ _ ?_
      · intro s f hs
        exact foldl_preserve _ (RelInv kws)
          (fun s' b hs' => processJob_relinv _ kws or f.source s' b hs') _ _ hs
      · refine ⟨?_, ?_⟩
        · intro a ha
          simp at ha
        · intro p hp
          simp at hp
    split
    · have h2 : RelInv kws ((List.take limit
          (feeds.foldl (processFeed (is_empty db) kws or) ⟨db, [], []⟩).all_new).foldl
            (alertAndSave or) (feeds.foldl (processFeed (is_empty db) kws or) ⟨db, [], []⟩)) := by
        refine foldl_preserve_mem _ (RelInv kws)
          (fun p => is_relevant kws p.1.title p.1.summary = true) ?_ _ ?_ _ h1
        · intro s p hq hs
          obtain ⟨hal, han⟩ := hs
          refine ⟨?_, han⟩
          intro a ha
          unfold alertAndSave at ha
          rcases List.mem_append.1 ha with hm | hm
          · exact hal a hm
          · rw [List.mem_singleton.1 hm]
            exact hq
        · intro p hp
          exact h1.2 p (List.mem_of_mem_take hp)
      refine foldl_preserve _ (RelInv kws) ?_ _ _ h2
      intro s p hs
      exact ⟨hs.1, hs.2⟩
    · exact h1
  exact hinv.1

/-! ### Irrelevant new jobs are recorded in the same cycle -/

/-- After processFeed runs on a feed containing an irrelevant job, the job's
link is in the store (saved now if it was new, already present otherwise). -/
theorem processFeed_irrelevant_recorded (fr : Bool) (kws : List String) (or : Oracles)
    (f : FeedData) (j : Job) (hj : j ∈ f.jobs)
    (hirr : is_relevant kws j.title j.summary = false) (st : CycleState) :
    memDb (processFeed fr kws or st f).db j.link = true := by
  by_cases hnew : is_new_job st.db j.link = true
  · have hmem : j ∈ f.jobs.filter fun j' => is_new_job st.db j'.link :=
      List.mem_filter.2 ⟨hj, hnew⟩
    unfold processFeed
    refine foldl_establish _ (fun s : CycleState => memDb s.db j.link = true) ?_ j ?_ _ _ hmem
    · intro s b hs
      exact processJob_db_mono fr kws or f.source s b _ hs
    · intro s
      have hirr' : ¬ is_relevant kws j.title j.summary = true := by simp [hirr]
      by_cases hfr : fr = true
      · subst hfr
        rw [processJob_first, if_neg hirr']
        exact memDb_save_self _ _
      · have hfr' : fr = false := by simpa using hfr
        subst hfr'
        rw [processJob_steady, if_neg hirr']
        exact memDb_save_self _ _
  · have hmem2 : memDb st.db j.link = true := by
      simpa [is_new_job] using hnew
    exact processFeed_db_mono fr kws or st f _ hmem2

/-- Any irrelevant job occurring in some fetched feed has its link in the
store when the cycle ends. -/
theorem check_feeds_irrelevant_recorded (kws : List String) (limit : Nat) (or : Oracles)
    (feeds : List FeedData) (db : JobDatabase) (f : FeedData) (j : Job)
    (hf : f ∈ feeds) (hj : j ∈ f.jobs)
    (hirr : is_relevant kws j.title j.summary = false) :
    memDb (check_feeds kws limit or feeds db).db j.link = true := by
  simp only [check_feeds]
  have h1 : memDb ((feeds.foldl (processFeed (is_empty db) kws or) ⟨db, [], []⟩).db)
      j.link = true := by
    refine foldl_establish _ (fun s : CycleState => memDb s.db j.link = true) ?_ f ?_ _ _ hf
    · intro s b hs
      exact processFeed_db_mono _ kws or s b _ hs
    · intro s
      exact processFeed_irrelevant_recorded _ kws or f j hj hirr s
  split
  · refine foldl_preserve _ (fun s : CycleState => memDb s.db j.link = true)
      (fun s b hs => memDb_save_mono _ _ _ hs) _ _ ?_
    exact foldl_preserve _ (fun s : CycleState => memDb s.db j.link = true)
      (fun s b hs => alertAndSave_db_mono or s b _ hs) _ _ h1
  · exact h1

/-! ### The bootstrap cycle: cap and full recording -/

/-- The collected first-run list is the spec's relevant-new sequence (and in
particular does not depend on the oracles). -/
theorem firstRunCollected_eq (kws : List String) (or : Oracles) (feeds : List FeedData)
    (db : JobDatabase) : firstRunCollected kws or feeds db = relevantNewSeq kws feeds db := by
  unfold firstRunCollected
  have := (feeds_first_char kws or feeds ⟨db, [], []⟩).2
  simpa using this

/-- On an empty store: the cycle alerts exactly the first limit entries of the
collected sequence, in order, and records every collected entry. -/
theorem check_feeds_bootstrap (kws : List String) (limit : Nat) (or : Oracles)
    (feeds : List FeedData) :
    ((check_feeds kws limit or feeds []).alerts.map fun a => (a.job, a.source)) =
      (firstRunCollected kws or feeds []).take limit ∧
    (∀ p ∈ firstRunCollected kws or feeds [],
      memDb (check_feeds kws limit or feeds []).db p.1.link = true) := by
  simp only [check_feeds]
  have hie : is_empty ([] : JobDatabase) = true := rfl
  rw [hie]
  obtain ⟨hal, han⟩ := feeds_first_char kws or feeds ⟨[], [], []⟩
  simp only [List.nil_append] at hal han
  by_cases hne : (feeds.foldl (processFeed true kws or) ⟨[], [], []⟩).all_new.isEmpty = true
  · have hnil : (feeds.foldl (processFeed true kws or) ⟨[], [], []⟩).all_new = [] := by
      simpa using hne
    simp only [hne, Bool.not_true, Bool.and_false, Bool.false_eq_true, if_false]
    constructor
    · rw [hal]
      unfold firstRunCollected
      rw [hnil]
      simp
    · intro p hp
      unfold firstRunCollected at hp
      rw [hnil] at hp
      exact absurd hp (List.not_mem_nil p)
  · have hne' : (feeds.foldl (processFeed true kws or) ⟨[], [], []⟩).all_new.isEmpty = false := by
      simpa using hne
    simp only [hne', Bool.not_false, Bool.and_true, eq_self_iff_true, if_true]
    obtain ⟨hk1, _⟩ := foldl_dropSave_keep
      (List.drop limit (feeds.foldl (processFeed true kws or) ⟨[], [], []⟩).all_new)
      ((List.take limit (feeds.foldl (processFeed true kws or) ⟨[], [], []⟩).all_new).foldl
        (alertAndSave or) (feeds.foldl (processFeed true kws or) ⟨[], [], []⟩))
    obtain ⟨hc1, _⟩ := foldl_alertAndSave_char or
      (List.take limit (feeds.foldl (processFeed true kws or) ⟨[], [], []⟩).all_new)
      (feeds.foldl (processFeed true kws or) ⟨[], [], []⟩)
    constructor
    · rw [hk1, hc1, hal]
      unfold firstRunCollected
      simp
    · intro p hp
      unfold firstRunCollected at hp
      have hsplit := List.take_append_drop limit
        (feeds.foldl (processFeed true kws or) ⟨[], [], []⟩).all_new
      rw [← hsplit] at hp
      rcases List.mem_append.1 hp with hmem | hmem
      · have h2 : memDb ((List.take limit
            (feeds.foldl (processFeed true kws or) ⟨[], [], []⟩).all_new).foldl
              (alertAndSave or)
              (feeds.foldl (processFeed true kws or) ⟨[], [], []⟩)).db p.1.link = true := by
          refine foldl_establish (alertAndSave or)
            (fun s : CycleState => memDb s.db p.1.link = true) ?_ p ?_ _ _ hmem
          · intro s b hs
            exact alertAndSave_db_mono or s b _ hs
          · intro s
            exact memDb_save_self _ _
        exact foldl_preserve _ (fun s : CycleState => memDb s.db p.1.link = true)
          (fun s b hs => memDb_save_mono _ _ _ hs) _ _ h2
      · refine foldl_establish _ (fun s : CycleState => memDb s.db p.1.link = true) ?_ p ?_ _ _ hmem
        · intro s b hs
          exact memDb_save_mono _ _ _ hs
        · intro s
          exact memDb_save_self _ _

/-! ### Fetch failures and extraction -/

/-- Every failure mode of fetch_jobs yields the empty job list. -/
theorem fetch_failure_empty (url : String) (o : FetchOutcome)
    (h : isFetchFailure url o = true) : fetch_jobs url o = [] := by
  cases o with
  | response status entries =>
    unfold fetch_jobs
    by_cases hv : validate_url url = true
    · rw [hv]
      simp only [Bool.not_true, Bool.false_eq_true, if_false]
      unfold isFetchFailure at h
      rw [hv] at h
      simp only [Bool.not_true, Bool.false_or] at h
      by_cases hs : status = 200
      · subst hs
        have hent : entries = [] := by simpa using h
        subst hent
        simp
      · simp [hs]
    · have hv' : validate_url url = false := by simpa using hv
      rw [hv']
      simp
  | connError => simp [fetch_jobs, ite_self]
  | timeout => simp [fetch_jobs, ite_self]
  | requestError => simp [fetch_jobs, ite_self]
  | unexpectedError => simp [fetch_jobs, ite_self]

/-- A feed that produced no items leaves the cycle state untouched. -/
theorem processFeed_empty (fr : Bool) (kws : List String) (or : Oracles)
    (st : CycleState) (src : String) : processFeed fr kws or st ⟨src, []⟩ = st := rfl

/-- A successfully extracted job has a non-empty title and a non-empty
link. -/
theorem extract_some (e : Entry) (j : Job) (h : extract_job_data e = some j) :
    j.title ≠ "" ∧ j.link ≠ "" := by
  simp only [extract_job_data] at h
  split at h
  · next hcond =>
      rw [Bool.and_eq_true] at hcond
      obtain ⟨h1, h2⟩ := hcond
      injection h with hj
      subst hj
      exact ⟨of_decide_eq_true h1, of_decide_eq_true h2⟩
  · cases h

/-! ### Claims -/

/-- C3, counterexample: the claim's final clause says that with an empty
keyword set is_relevant returns true for every input; the source's loop over
an empty keyword list falls through to return False, so is_relevant returns
false here. -/
theorem claim3_counterexample : ¬ (is_relevant [] "python developer" "backend api" = true) := by
  decide

/-- C3 (amended): for every title, summary and keyword set, is_relevant
returns true iff at least one keyword is a case-insensitive substring of
title ++ " " ++ summary; in particular, with an empty keyword set it returns
false for every input. -/
theorem claim3_filter_characterization :
    (∀ (keywords : List String) (title summary : String),
      is_relevant keywords title summary = true ↔
        ∃ k ∈ keywords,
          List.IsInfix (pyLower k.data) (pyLower (title ++ " " ++ summary).data)) ∧
    (∀ title summary : String, is_relevant [] title summary = false) := by
  constructor
  · intro kws t s
    simp only [is_relevant, List.any_eq_true, List.mem_map]
    constructor
    · rintro ⟨k', ⟨k, hk, rfl⟩, hc⟩
      exact ⟨k, hk, (containsCL_iff _ _).1 hc⟩
    · rintro ⟨k, hk, hinf⟩
      exact ⟨pyLower k.data, ⟨k, hk, rfl⟩, (containsCL_iff _ _).2 hinf⟩
  · intro t s
    rfl

/-- C7: recording is idempotent — a second save_job with the same link (even
with different title or published values) leaves the store, its count, and
every membership query unchanged, and is a no-op rather than an error. -/
theorem claim7_record_idempotent (db : JobDatabase) (j₁ j₂ : Job) (h : j₁.link = j₂.link) :
    save_job (save_job db j₁) j₂ = save_job db j₁ ∧
    db_count (save_job (save_job db j₁) j₂) = db_count (save_job db j₁) ∧
    (∀ l : String, memDb (save_job (save_job db j₁) j₂) l = memDb (save_job db j₁) l) := by
  have he := save_job_same_link db j₁ j₂ h
  exact ⟨he, by rw [he], fun l => by rw [he]⟩

/-- Witness for C7 at a concrete store and two jobs sharing a link. -/
theorem claim7_witness :
    save_job (save_job [] ⟨"Python bot", "https://x.com/1", "today", "s"⟩)
        ⟨"Other title", "https://x.com/1", "later", "s2"⟩ =
      save_job [] ⟨"Python bot", "https://x.com/1", "today", "s"⟩ ∧
    db_count (save_job (save_job [] ⟨"Python bot", "https://x.com/1", "today", "s"⟩)
        ⟨"Other title", "https://x.com/1", "later", "s2"⟩) =
      db_count (save_job [] ⟨"Python bot", "https://x.com/1", "today", "s"⟩) ∧
    (∀ l : String,
      memDb (save_job (save_job [] ⟨"Python bot", "https://x.com/1", "today", "s"⟩)
        ⟨"Other title", "https://x.com/1", "later", "s2"⟩) l =
      memDb (save_job [] ⟨"Python bot", "https://x.com/1", "today", "s"⟩) l) :=
  claim7_record_idempotent [] ⟨"Python bot", "https://x.com/1", "today", "s"⟩
    ⟨"Other title", "https://x.com/1", "later", "s2"⟩ rfl

/-- C10: extraction drops an entry iff its link is missing/empty or its
whitespace-normalized title is empty; the "No Title" default survives
normalization, so a missing title never drops an entry; and every job
returned by fetch_jobs has a non-empty title and a non-empty link (the
published and summary fields are total strings by construction). -/
theorem claim10_fetch_items_wellformed :
    (∀ e : Entry, extract_job_data e = none ↔
      (clean_text (e.title.getD "No Title") = "" ∨ e.link.getD "" = "")) ∧
    clean_text "No Title" = "No Title" ∧
    (∀ (url : String) (o : FetchOutcome) (j : Job),
      j ∈ fetch_jobs url o → j.title ≠ "" ∧ j.link ≠ "") := by
  refine ⟨?_, by decide, ?_⟩
  · intro e
    by_cases ht : clean_text (e.title.getD "No Title") = "" <;>
      by_cases hl : e.link.getD "" = "" <;>
        simp [extract_job_data, ht, hl]
  · intro url o j hj
    unfold fetch_jobs at hj
    by_cases hv : validate_url url = true
    · rw [hv] at hj
      simp only [Bool.not_true, Bool.false_eq_true, if_false] at hj
      cases o with
      | response status entries =>
        dsimp only at hj
        by_cases hs : status = 200
        · subst hs
          rw [if_neg (by simp : ¬ (200 ≠ 200))] at hj
          by_cases hent : entries.isEmpty = true
          · rw [if_pos hent] at hj
            exact absurd hj (List.not_mem_nil j)
          · rw [if_neg hent] at hj
            obtain ⟨e, _, hex⟩ := List.mem_filterMap.1 hj
            exact extract_some e j hex
        · rw [if_pos hs] at hj
          exact absurd hj (List.not_mem_nil j)
      | connError => simp at hj
      | timeout => simp at hj
      | requestError => simp at hj
      | unexpectedError => simp at hj
    · have hv' : validate_url url = false := by simpa using hv
      rw [hv'] at hj
      simp at hj

/-- Witness for C10 at a concrete feed response whose entry has a padded
title, a link, and no published/summary fields. -/
theorem claim10_witness :
    (⟨"A title", "https://m.com/1", "Date not available", "No description available"⟩ :
        Job).title ≠ "" ∧
    (⟨"A title", "https://m.com/1", "Date not available", "No description available"⟩ :
        Job).link ≠ "" :=
  claim10_fetch_items_wellformed.2.2 "https://mostaql.com/rss"
    (FetchOutcome.response 200 [⟨some "  A  title ", some "https://m.com/1", none, none⟩])
    ⟨"A title", "https://m.com/1", "Date not available", "No description available"⟩
    (by decide)

/-- C6: any fetch failure (invalid URL, request exception of any kind, non-200
status, or a body yielding no entries) produces the empty job list — never an
exception past the fetch boundary — and a feed contributing the resulting
empty list is a no-op for the cycle: every other feed is processed, alerted
and recorded exactly as if the failing feed were absent. -/
theorem claim6_fetch_failure_isolated (url : String) (o : FetchOutcome)
    (h : isFetchFailure url o = true) :
    fetch_jobs url o = [] ∧
    ∀ (keywords : List String) (limit : Nat) (or : Oracles) (pre post : List FeedData)
      (src : String) (db : JobDatabase),
      check_feeds keywords limit or (pre ++ ⟨src, fetch_jobs url o⟩ :: post) db =
        check_feeds keywords limit or (pre ++ post) db := by
  have hempty := fetch_failure_empty url o h
  refine ⟨hempty, ?_⟩
  intro kws limit or pre post src db
  have hfold : ∀ (fr : Bool) (st : CycleState),
      (pre ++ ⟨src, fetch_jobs url o⟩ :: post).foldl (processFeed fr kws or) st =
        (pre ++ post).foldl (processFeed fr kws or) st := by
    intro fr st
    rw [List.foldl_append, List.foldl_cons, hempty, processFeed_empty, ← List.foldl_append]
  simp only [check_feeds, hfold]

/-- Witness for C6: a timed-out fetch for one feed leaves a second feed's
cycle outcome unchanged. -/
theorem claim6_witness :
    fetch_jobs "https://mostaql.com/rss" FetchOutcome.timeout = [] ∧
    check_feeds ["python"] 3 ⟨fun _ => GenOutcome.ok "draft", fun _ => true⟩
        ([] ++ ⟨"Mostaql", fetch_jobs "https://mostaql.com/rss" FetchOutcome.timeout⟩ ::
          [⟨"Remoteok", [⟨"Python bot", "https://y.com/1", "today", "summary"⟩]⟩]) [] =
      check_feeds ["python"] 3 ⟨fun _ => GenOutcome.ok "draft", fun _ => true⟩
        ([] ++ [⟨"Remoteok", [⟨"Python bot", "https://y.com/1", "today", "summary"⟩]⟩]) [] :=
  ⟨(claim6_fetch_failure_isolated "https://mostaql.com/rss" FetchOutcome.timeout (by decide)).1,
   (claim6_fetch_failure_isolated "https://mostaql.com/rss" FetchOutcome.timeout (by decide)).2
     ["python"] 3 ⟨fun _ => GenOutcome.ok "draft", fun _ => true⟩ []
     [⟨"Remoteok", [⟨"Python bot", "https://y.com/1", "today", "summary"⟩]⟩] "Mostaql" []⟩

/-- C8: when enrichment fails, generate_proposal returns the clearly-marked
fallback string instead of raising; the escaped proposal text (for any
proposal, hence also for the fallback) is embedded in the formatted alert
message; and the enrichment outcome has no influence on which alerts are sent
or on what is recorded — the alert is still sent. -/
theorem claim8_enrichment_fallback :
    (∀ title description e : String,
      generate_proposal title description (GenOutcome.err e) = proposalFallback e) ∧
    (∀ (job : Job) (source proposal : String),
      List.IsInfix (html_escape proposal).data
        (format_alert_with_proposal job source proposal).data) ∧
    (∀ (keywords : List String) (limit : Nat) (g₁ g₂ : Nat → GenOutcome)
      (send : Nat → Bool) (feeds : List FeedData) (db : JobDatabase),
      (check_feeds keywords limit ⟨g₁, send⟩ feeds db).db =
        (check_feeds keywords limit ⟨g₂, send⟩ feeds db).db ∧
      ((check_feeds keywords limit ⟨g₁, send⟩ feeds db).alerts.map fun a => (a.job, a.source)) =
        ((check_feeds keywords limit ⟨g₂, send⟩ feeds db).alerts.map
          fun a => (a.job, a.source))) := by
  refine ⟨fun _ _ _ => rfl, ?_, ?_⟩
  · intro job source proposal
    refine ⟨(alertTemplateHead job source).data, alertTemplateTail.data, ?_⟩
    rw [format_alert_with_proposal, String.data_append, String.data_append,
      List.append_assoc]
  · intro kws limit g₁ g₂ send feeds db
    have hproj := check_feeds_proj kws limit ⟨g₁, send⟩ ⟨g₂, send⟩ feeds db
    exact ⟨congrArg (fun t => t.1) hproj, congrArg (fun t => t.2.1) hproj⟩

/-- C9: every item judged irrelevant that occurs in a fetched feed ends the
cycle recorded in the store (saved now if new, already present otherwise),
and no alert of any cycle is for an irrelevant job — in first-run and
steady-state cycles alike. -/
theorem claim9_irrelevant_recorded_never_alerted (keywords : List String) (limit : Nat)
    (or : Oracles) (feeds : List FeedData) (db : JobDatabase) (f : FeedData) (j : Job)
    (hf : f ∈ feeds) (hj : j ∈ f.jobs)
    (hirr : is_relevant keywords j.title j.summary = false) :
    memDb (check_feeds keywords limit or feeds db).db j.link = true ∧
    (∀ a ∈ (check_feeds keywords limit or feeds db).alerts,
      is_relevant keywords a.job.title a.job.summary = true) :=
  ⟨check_feeds_irrelevant_recorded keywords limit or feeds db f j hf hj hirr,
   check_feeds_alerts_relevant keywords limit or feeds db⟩

/-- Witness for C9: a concrete bootstrap cycle with one irrelevant job. -/
theorem claim9_witness :
    memDb (check_feeds ["python"] 3 ⟨fun _ => GenOutcome.ok "draft", fun _ => true⟩
        [⟨"Mostaql", [⟨"Logo design", "https://x.com/2", "today", "arabic calligraphy"⟩]⟩]
        []).db "https://x.com/2" = true ∧
    (∀ a ∈ (check_feeds ["python"] 3 ⟨fun _ => GenOutcome.ok "draft", fun _ => true⟩
        [⟨"Mostaql", [⟨"Logo design", "https://x.com/2", "today", "arabic calligraphy"⟩]⟩]
        []).alerts, is_relevant ["python"] a.job.title a.job.summary = true) :=
  claim9_irrelevant_recorded_never_alerted ["python"] 3
    ⟨fun _ => GenOutcome.ok "draft", fun _ => true⟩
    [⟨"Mostaql", [⟨"Logo design", "https://x.com/2", "today", "arabic calligraphy"⟩]⟩] []
    ⟨"Mostaql", [⟨"Logo design", "https://x.com/2", "today", "arabic calligraphy"⟩]⟩
    ⟨"Logo design", "https://x.com/2", "today", "arabic calligraphy"⟩
    (by decide) (by decide) (by decide)

/-- C5: send_message returns a boolean on every outcome (each exception path
is a false return, modelled by totality of the function), and the outcome of
the send has no influence on the store or on which alerts are dispatched:
save_job runs for every alerted item regardless of the send result, so every
alerted item ends its cycle recorded. -/
theorem claim5_send_failure_still_records (keywords : List String) (limit : Nat)
    (gen : Nat → GenOutcome) (send₁ send₂ : Nat → Bool) (feeds : List FeedData)
    (db : JobDatabase) :
    (check_feeds keywords limit ⟨gen, send₁⟩ feeds db).db =
      (check_feeds keywords limit ⟨gen, send₂⟩ feeds db).db ∧
    ((check_feeds keywords limit ⟨gen, send₁⟩ feeds db).alerts.map fun a => (a.job, a.source)) =
      ((check_feeds keywords limit ⟨gen, send₂⟩ feeds db).alerts.map
        fun a => (a.job, a.source)) ∧
    (∀ a ∈ (check_feeds keywords limit ⟨gen, send₁⟩ feeds db).alerts,
      memDb (check_feeds keywords limit ⟨gen, send₁⟩ feeds db).db a.job.link = true) ∧
    (∀ (message : String) (o : SendOutcome),
      send_message message o = true ∨ send_message message o = false) := by
  have hproj := check_feeds_proj keywords limit ⟨gen, send₁⟩ ⟨gen, send₂⟩ feeds db
  refine ⟨congrArg (fun t => t.1) hproj, congrArg (fun t => t.2.1) hproj,
    check_feeds_recorded keywords limit ⟨gen, send₁⟩ feeds db, ?_⟩
  intro message o
  cases hsm : send_message message o
  · exact Or.inr rfl
  · exact Or.inl rfl

/-- Witness for C5: with a send oracle that always fails, a relevant new item
is still recorded, and the store equals the one produced with an
always-succeeding send oracle. -/
theorem claim5_witness :
    (check_feeds ["python"] 3 ⟨fun _ => GenOutcome.ok "draft", fun _ => false⟩
        [⟨"Mostaql", [⟨"Python bot needed", "https://x.com/1", "today", "build a bot"⟩]⟩]
        [⟨"https://seed", "seed", "d"⟩]).db =
      (check_feeds ["python"] 3 ⟨fun _ => GenOutcome.ok "draft", fun _ => true⟩
        [⟨"Mostaql", [⟨"Python bot needed", "https://x.com/1", "today", "build a bot"⟩]⟩]
        [⟨"https://seed", "seed", "d"⟩]).db ∧
    memDb (check_feeds ["python"] 3 ⟨fun _ => GenOutcome.ok "draft", fun _ => false⟩
        [⟨"Mostaql", [⟨"Python bot needed", "https://x.com/1", "today", "build a bot"⟩]⟩]
        [⟨"https://seed", "seed", "d"⟩]).db "https://x.com/1" = true :=
  ⟨(claim5_send_failure_still_records ["python"] 3 (fun _ => GenOutcome.ok "draft")
      (fun _ => false) (fun _ => true)
      [⟨"Mostaql", [⟨"Python bot needed", "https://x.com/1", "today", "build a bot"⟩]⟩]
      [⟨"https://seed", "seed", "d"⟩]).1,
   (claim5_send_failure_still_records ["python"] 3 (fun _ => GenOutcome.ok "draft")
      (fun _ => false) (fun _ => true)
      [⟨"Mostaql", [⟨"Python bot needed", "https://x.com/1", "today", "build a bot"⟩]⟩]
      [⟨"https://seed", "seed", "d"⟩]).2.2.1
    ⟨⟨"Python bot needed", "https://x.com/1", "today", "build a bot"⟩, "Mostaql",
      format_alert_with_proposal
        ⟨"Python bot needed", "https://x.com/1", "today", "build a bot"⟩ "Mostaql" "draft",
      false⟩
    (by decide)⟩

/-- C2: on a bootstrap cycle (store empty at cycle start), with N the number
of relevant new items across all feeds (the relevant-new sequence, in feed
order then within-feed fetch order), the alerts are exactly the first limit
entries of that sequence in that order — hence exactly min(N, limit) items
are alerted — and every one of the N items is recorded by the end of the
cycle. -/
theorem claim2_first_run_cap (keywords : List String) (limit : Nat) (or : Oracles)
    (feeds : List FeedData) (db : JobDatabase) (h : is_empty db = true) :
    ((check_feeds keywords limit or feeds db).alerts.map fun a => (a.job, a.source)) =
      (relevantNewSeq keywords feeds db).take limit ∧
    (check_feeds keywords limit or feeds db).alerts.length =
      min (relevantNewSeq keywords feeds db).length limit ∧
    (∀ p ∈ relevantNewSeq keywords feeds db,
      memDb (check_feeds keywords limit or feeds db).db p.1.link = true) := by
  have hdb : db = [] := by
    cases db with
    | nil => rfl
    | cons a as => simp [is_empty] at h
  subst hdb
  obtain ⟨h1, h2⟩ := check_feeds_bootstrap keywords limit or feeds
  rw [firstRunCollected_eq] at h1 h2
  refine ⟨h1, ?_, h2⟩
  have hlen := congrArg List.length h1
  simpa [List.length_take, Nat.min_comm] using hlen

/-- Witness for C2: two relevant items and one irrelevant item on a bootstrap
run with cap 1: the cycle alerts exactly min(2, 1) = 1 item. -/
theorem claim2_witness :
    (check_feeds ["python"] 1 ⟨fun _ => GenOutcome.ok "draft", fun _ => true⟩
        [⟨"Mostaql", [⟨"Python bot needed", "https://x.com/1", "today", "build a bot"⟩,
                      ⟨"Logo design", "https://x.com/2", "today", "arabic calligraphy"⟩]⟩,
         ⟨"Remoteok", [⟨"Flask api work", "https://y.com/1", "today", "backend"⟩]⟩]
        []).alerts.length =
      min (relevantNewSeq ["python"]
        [⟨"Mostaql", [⟨"Python bot needed", "https://x.com/1", "today", "build a bot"⟩,
                      ⟨"Logo design", "https://x.com/2", "today", "arabic calligraphy"⟩]⟩,
         ⟨"Remoteok", [⟨"Flask api work", "https://y.com/1", "today", "backend"⟩]⟩]
        []).length 1 :=
  (claim2_first_run_cap ["python"] 1 ⟨fun _ => GenOutcome.ok "draft", fun _ => true⟩
    [⟨"Mostaql", [⟨"Python bot needed", "https://x.com/1", "today", "build a bot"⟩,
                  ⟨"Logo design", "https://x.com/2", "today", "arabic calligraphy"⟩]⟩,
     ⟨"Remoteok", [⟨"Flask api work", "https://y.com/1", "today", "backend"⟩]⟩]
    [] rfl).2.1

/-- C1, counterexample: the claim is false as stated.  On a bootstrap cycle
whose two feeds both return the same item, both occurrences pass the per-feed
dedup query (no relevant item is saved before the batch), both enter
all_new_jobs, and both are alerted — two alerts for one id while every
save_job succeeds (this model's store never fails). -/
theorem claim1_counterexample :
    ¬ (countAlertsFor
        (runCycles ["python"] 3
          [⟨⟨fun _ => GenOutcome.ok "draft", fun _ => true⟩,
            [⟨"Mostaql", [⟨"Python bot needed", "https://x.com/1", "today", "build a bot"⟩]⟩,
             ⟨"Remoteok", [⟨"Python bot needed", "https://x.com/1", "today", "build a bot"⟩]⟩]⟩]
          []).2
        "https://x.com/1" ≤ 1) := by decide

/-- C1 (amended): provided the links fetched within each single cycle are
pairwise distinct (across that cycle's feeds), at most one alert is ever sent
for any id across any number of cycles; once recorded, an id is dropped at
the dedup step of every later cycle (record always succeeds in this model). -/
theorem claim1_no_duplicate_alerts (keywords : List String) (limit : Nat)
    (cycles : List CycleIn) (db : JobDatabase) (l : String)
    (h : ∀ c ∈ cycles, (cycleLinks c.feeds).Nodup) :
    countAlertsFor (runCycles keywords limit cycles db).2 l ≤ 1 :=
  (runCycles_le_one keywords limit cycles db l h).1

/-- Witness for C1: two cycles, the second re-fetching the first cycle's item
plus a new one; the re-fetched item is alerted at most once overall. -/
theorem claim1_witness :
    (∀ c ∈ ([⟨⟨fun _ => GenOutcome.ok "draft", fun _ => true⟩,
        [⟨"Mostaql", [⟨"Python bot needed", "https://x.com/1", "today", "build a bot"⟩]⟩]⟩,
      ⟨⟨fun _ => GenOutcome.ok "draft", fun _ => true⟩,
        [⟨"Mostaql", [⟨"Python bot needed", "https://x.com/1", "today", "build a bot"⟩,
                      ⟨"Logo design", "https://x.com/2", "today", "arabic"⟩]⟩]⟩] :
        List CycleIn), (cycleLinks c.feeds).Nodup) ∧
    countAlertsFor
      (runCycles ["python"] 3
        [⟨⟨fun _ => GenOutcome.ok "draft", fun _ => true⟩,
          [⟨"Mostaql", [⟨"Python bot needed", "https://x.com/1", "today", "build a bot"⟩]⟩]⟩,
         ⟨⟨fun _ => GenOutcome.ok "draft", fun _ => true⟩,
          [⟨"Mostaql", [⟨"Python bot needed", "https://x.com/1", "today", "build a bot"⟩,
                        ⟨"Logo design", "https://x.com/2", "today", "arabic"⟩]⟩]⟩]
        []).2
      "https://x.com/1" ≤ 1 :=
  ⟨by decide,
   claim1_no_duplicate_alerts ["python"] 3
     [⟨⟨fun _ => GenOutcome.ok "draft", fun _ => true⟩,
       [⟨"Mostaql", [⟨"Python bot needed", "https://x.com/1", "today", "build a bot"⟩]⟩]⟩,
      ⟨⟨fun _ => GenOutcome.ok "draft", fun _ => true⟩,
       [⟨"Mostaql", [⟨"Python bot needed", "https://x.com/1", "today", "build a bot"⟩,
                     ⟨"Logo design", "https://x.com/2", "today", "arabic"⟩]⟩]⟩]
     [] "https://x.com/1" (by decide)⟩

/-- C4: the claim describes intended behaviour the code does not implement.
run.py wraps no database operation in a try/except; with a store whose third
operation (the save_job of the first new irrelevant item) raises, the sqlite
error propagates out of check_feeds, and the only handler around the run
loop is except KeyboardInterrupt, which does not catch it — the process
terminates instead of skipping the item and continuing. -/
theorem claim4_storage_failure_crashes :
    check_feedsE ["python"] 3 ⟨fun _ => GenOutcome.ok "draft", fun _ => true⟩
        (fun n => n == 2)
        [⟨"Mostaql", [⟨"Logo design", "https://x.com/2", "today", "arabic calligraphy"⟩]⟩]
        [] = Except.error PyExc.sqliteError ∧
    runCatches PyExc.sqliteError = false :=
  ⟨rfl, rfl⟩
